import Mathlib

/-!
Shallow embedding of the per-country time-series analytics suite of
`dbt-economic-indicators-eu`: the anomaly detector
(`models/marts/py_anomaly_detection.py`), the quality scorer
(`models/marts/py_data_quality_scores.py`) and the forecast engine
(`models/marts/py_unemployment_forecast.py`).

Conventions of the embedding:
* floats are modelled by `ℚ`, except where the source takes a square root
  (standard deviations), which is modelled by `Real.sqrt` over `ℝ`;
* a missing value (pandas `NaN` / absent observation) is `none`;
* `reference_date` is a first-of-month date by the input contract and is
  represented by its absolute month index `12·year + (monthOfYear - 1)`;
  the wall clock `datetime.now()` is an explicit parameter (`now`), as an
  absolute day number for the quality scorer's timeliness computation and
  as an opaque timestamp for the forecast engine's `forecast_generated_at`;
* pure passthrough columns that no analyzer reads (`reference_year`,
  `reference_month`, `indicator_key`) are omitted from the row model.
-/

namespace EuroIndicators

-- Comparisons on `ℝ` (standard deviations) are classical; the scoped
-- low-priority instance leaves every rational computation decidable.
open Classical

/-- One row of the fact relation `fct_economic_indicators`. -/
structure InRow where
  country_code : String
  reference_date : ℕ
  unemployment_rate_pct : Option ℚ
  inflation_rate_mom_pct : Option ℚ
  deriving DecidableEq

instance : Inhabited InRow := ⟨⟨"", 0, none, none⟩⟩

/-- The input relation together with which of the two tracked indicator
columns are present in its schema (a pandas DataFrame may lack a column
entirely; the anomaly detector tests for this with
`if 'unemployment_rate_pct' in country_data.columns`).  When a presence
flag is `false` the corresponding field of the rows is dead data that no
code path of the embedding reads. -/
structure InputRel where
  rows : List InRow
  hasUnemploymentCol : Bool
  hasInflationCol : Bool

/-- Helper of `firstAppearance`: keep the elements not seen yet, in order,
recording what has been seen. -/
def firstAppearanceAux : List String → List String → List String
  | _, [] => []
  | seen, c :: rest =>
    if c ∈ seen then firstAppearanceAux seen rest
    else c :: firstAppearanceAux (c :: seen) rest

/-- pandas `Series.unique()`: the distinct values in order of first
appearance. -/
def firstAppearance (l : List String) : List String := firstAppearanceAux [] l

/-- The sub-frame `monthly_df[monthly_df['country_code'] == country_code]`,
in input row order. -/
def countryRows (rows : List InRow) (c : String) : List InRow :=
  rows.filter (fun r => decide (r.country_code = c))

/-- Embeds `country_data.sort_values('reference_date')`. -/
def sortByDate (rows : List InRow) : List InRow :=
  rows.insertionSort (fun a b => a.reference_date ≤ b.reference_date)

/-- pandas `Series.mean()` over the non-missing values of a series. -/
def listMean (xs : List ℚ) : ℚ := xs.sum / xs.length

/-- pandas `Series.std()` squared: the sample variance with `ddof = 1`.
For fewer than two values the source yields `NaN`; every call site of the
embedding is guarded so that this case is never read. -/
def sampleVariance (xs : List ℚ) : ℚ :=
  ((xs.map (fun x => (x - listMean xs) ^ 2)).sum) / ((xs.length : ℚ) - 1)

/-- Number of non-missing observations of the unemployment indicator a
country has in the relation. -/
def unempObsCount (rows : List InRow) (c : String) : ℕ :=
  (countryRows rows c).countP (fun r => r.unemployment_rate_pct.isSome)

/-- Number of non-missing observations of the inflation indicator a country
has in the relation. -/
def inflObsCount (rows : List InRow) (c : String) : ℕ :=
  (countryRows rows c).countP (fun r => r.inflation_rate_mom_pct.isSome)

/-! ### Calendar

`datetime.now() - latest_date).days` in the quality scorer subtracts real
calendar dates, so the embedding converts a month index to an absolute day
number with the proleptic Gregorian calendar. -/

/-- Gregorian leap-year rule. -/
def isLeapYear (y : ℕ) : Bool :=
  y % 4 == 0 && (y % 100 != 0 || y % 400 == 0)

/-- Length of month `m` (1..12) of year `y`. -/
def daysInMonth (y m : ℕ) : ℕ :=
  if m = 2 then (if isLeapYear y then 29 else 28)
  else if m = 4 ∨ m = 6 ∨ m = 9 ∨ m = 11 then 30
  else 31

/-- Days from year 0 to the start of year `y`. -/
def daysBeforeYear (y : ℕ) : ℕ :=
  365 * y + (List.range y).countP isLeapYear

/-- Absolute day number of the first day of the month with absolute month
index `M`. -/
def firstOfMonthDayNumber (M : ℕ) : ℕ :=
  daysBeforeYear (M / 12)
    + ((List.range (M % 12)).map (fun k => daysInMonth (M / 12) (k + 1))).sum

/-! ### Quality scorer (`py_data_quality_scores.py`) -/

/-- Per-column completeness: `df[col].notna().mean() * 100`. -/
def completenessPct (col : List (Option ℚ)) : ℚ :=
  100 * (col.countP (fun o => o.isSome) : ℚ) / col.length

/-- Per-column validity: share of the non-missing values inside
`[lo, hi]`, times 100. -/
def validityPct (xs : List ℚ) (lo hi : ℚ) : ℚ :=
  100 * (xs.countP (fun x => decide (lo ≤ x ∧ x ≤ hi)) : ℚ) / xs.length

/-- Embeds `(unemp.diff() == 0).sum()`: number of adjacent equal pairs. -/
def adjacentEqualCount (xs : List ℚ) : ℕ :=
  (xs.zip xs.tail).countP (fun p => decide (p.1 = p.2))

/-- Per-column consistency score:
`max(0, 100 - (consecutive_same / len * 100) * 2)`. -/
def consistencyScore (xs : List ℚ) : ℚ :=
  max 0 (100 - (adjacentEqualCount xs : ℚ) / (xs.length : ℚ) * 100 * 2)

/-- Embeds `calculate_timeliness`: returns
`(timeliness_score, days_since_latest, latest_data_date)`.  The source
guards `pd.isna(latest_date)`, which happens exactly when the frame has no
rows. -/
def calculate_timeliness (rows : List InRow) (now : ℤ) : ℚ × Option ℤ × Option ℕ :=
  match (rows.map (fun r => r.reference_date)).max? with
  | none => (0, none, none)
  | some latest =>
    let d : ℤ := now - (firstOfMonthDayNumber latest : ℤ)
    if d ≤ 90 then (100, some d, some latest)
    else (max 0 (100 - ((d : ℚ) - 90) / 30 * 10), some d, some latest)

/-- Embeds `calculate_validity`: `(overall_validity, unemployment_validity,
inflation_validity)`; the per-column entries default to `0` when the column
has no data (`validity.get(key, 0)` in the record build), while the overall
score of an all-empty frame defaults to `100`. -/
def calculate_validity (rows : List InRow) : ℚ × ℚ × ℚ :=
  let u := (rows.map (fun r => r.unemployment_rate_pct)).filterMap id
  let i := (rows.map (fun r => r.inflation_rate_mom_pct)).filterMap id
  let scores := (if 0 < u.length then [validityPct u 0 30] else [])
      ++ (if 0 < i.length then [validityPct i (-5) 20] else [])
  (if scores.isEmpty then 100 else listMean scores,
   if 0 < u.length then validityPct u 0 30 else 0,
   if 0 < i.length then validityPct i (-5) 20 else 0)

/-- Embeds `calculate_consistency`: per column the score is only computed with
more than 10 non-missing values; with no qualifying column the overall
consistency defaults to `100`. -/
def calculate_consistency (rows : List InRow) : ℚ :=
  let u := (rows.map (fun r => r.unemployment_rate_pct)).filterMap id
  let i := (rows.map (fun r => r.inflation_rate_mom_pct)).filterMap id
  let scores := (if 10 < u.length then [consistencyScore u] else [])
      ++ (if 10 < i.length then [consistencyScore i] else [])
  if scores.isEmpty then 100 else listMean scores

/-- The quality-grade ladder of the source (`if overall_score >= 90: 'A'`
and so on). -/
def quality_grade_of (overall : ℚ) : String :=
  if 90 ≤ overall then "A"
  else if 80 ≤ overall then "B"
  else if 70 ≤ overall then "C"
  else if 60 ≤ overall then "D"
  else "F"

/-- The row-wise `primary_issue` recommendation added to the result frame. -/
def primaryIssueOf (completeness timeliness validity consistency : ℚ) : String :=
  if completeness < 80 then "completeness"
  else if timeliness < 80 then "timeliness"
  else if validity < 80 then "validity"
  else if consistency < 80 then "consistency"
  else "none"

/-- One row of the quality relation. -/
structure QRow where
  country_code : String
  total_records : ℕ
  completeness_score : ℚ
  unemployment_completeness : ℚ
  inflation_completeness : ℚ
  timeliness_score : ℚ
  days_since_latest_data : Option ℤ
  latest_data_date : Option ℕ
  validity_score : ℚ
  unemployment_validity : ℚ
  inflation_validity : ℚ
  consistency_score : ℚ
  overall_quality_score : ℚ
  quality_grade : String
  scored_at : ℤ
  primary_issue : String
  requires_attention : Bool

/-- The per-country record built inside the loop of
`py_data_quality_scores.model`.  Note that the source does NOT sort
`country_data` by `reference_date` here (unlike the other two analyzers):
the record is computed on the rows in input order.  `primary_issue` and
`requires_attention` are placeholders overwritten by `qualityPostStage`. -/
def qualityRecordFor (rows : List InRow) (c : String) (now : ℤ) : QRow :=
  let cd := countryRows rows c
  let compU := completenessPct (cd.map (fun r => r.unemployment_rate_pct))
  let compI := completenessPct (cd.map (fun r => r.inflation_rate_mom_pct))
  let tim := calculate_timeliness cd now
  let val := calculate_validity cd
  let cons := calculate_consistency cd
  let overall := (30 : ℚ)/100 * ((compU + compI) / 2) + 25/100 * tim.1
      + 25/100 * val.1 + 20/100 * cons
  { country_code := c
    total_records := cd.length
    completeness_score := (compU + compI) / 2
    unemployment_completeness := compU
    inflation_completeness := compI
    timeliness_score := tim.1
    days_since_latest_data := tim.2.1
    latest_data_date := tim.2.2
    validity_score := val.1
    unemployment_validity := val.2.1
    inflation_validity := val.2.2
    consistency_score := cons
    overall_quality_score := overall
    quality_grade := quality_grade_of overall
    scored_at := now
    primary_issue := ""
    requires_attention := false }

/-- The second pass over the result frame that adds `primary_issue` and
`requires_attention` (row-wise `DataFrame.apply`). -/
def qualityPostStage (r : QRow) : QRow :=
  { r with
    primary_issue := primaryIssueOf r.completeness_score r.timeliness_score
      r.validity_score r.consistency_score
    requires_attention := decide (r.overall_quality_score < 70) }

/-- Embeds `py_data_quality_scores.model`: one record per distinct country, in
order of first appearance, on the rows of the fact relation (both tracked
indicator columns assumed present, which every claim about this analyzer
presupposes).  `now` is the absolute day number of `datetime.now()`. -/
def qualityModel (rows : List InRow) (now : ℤ) : List QRow :=
  ((firstAppearance (rows.map (fun r => r.country_code))).map
    (fun c => qualityRecordFor rows c now)).map qualityPostStage

/-! ### Anomaly detector (`py_anomaly_detection.py`) -/

/-- Embeds `calculate_z_scores` applied to a full indicator column (missing values
included): mean and standard deviation are taken over the non-missing
values; if the standard deviation is `0` or undefined (fewer than two
values), every row — including missing ones — receives the constant
z-score `0`, else each non-missing value is standardised and missing rows
stay missing. -/
noncomputable def calculate_z_scores (col : List (Option ℚ)) : List (Option ℝ) :=
  let xs := col.filterMap id
  let m := listMean xs
  let std : ℝ := Real.sqrt (sampleVariance xs)
  if std = 0 ∨ xs.length < 2 then col.map (fun _ => some 0)
  else col.map (fun o => o.map (fun x => ((x : ℝ) - (m : ℝ)) / std))

/-- pandas `Series.quantile(q)` (linear interpolation) over a list of
values.  The upper interpolation index can fall out of range only when the
interpolation weight is zero, so the lower value is used as its default. -/
def quantileLinear (xs : List ℚ) (q : ℚ) : ℚ :=
  let ys := xs.insertionSort (fun a b => a ≤ b)
  let h := q * ((ys.length : ℚ) - 1)
  let i := (⌊h⌋).toNat
  let lo := ys.getD i 0
  lo + (h - (i : ℚ)) * (ys.getD (i + 1) lo - lo)

/-- Embeds `detect_iqr_outliers`: quartiles are computed over the non-missing
values, each non-missing value is compared against the fences, and a
missing value never flags (a NaN comparison is false in pandas). -/
def detect_iqr_outliers (col : List (Option ℚ)) : List Bool :=
  let xs := col.filterMap id
  let q1 := quantileLinear xs (1/4)
  let q3 := quantileLinear xs (3/4)
  let iqr := q3 - q1
  let lower_bound := q1 - (3/2) * iqr
  let upper_bound := q3 + (3/2) * iqr
  col.map (fun o =>
    match o with
    | none => false
    | some x => decide (x < lower_bound) || decide (upper_bound < x))

/-- Forward fill of a column (pandas `pad`), threading the last non-missing
value. -/
def forwardFill : List (Option ℚ) → Option ℚ → List (Option ℚ)
  | [], _ => []
  | o :: rest, last =>
    match o with
    | some x => some x :: forwardFill rest (some x)
    | none => last :: forwardFill rest last

/-- Flag of one `pct_change` entry: `|cur/prev - 1| > thr` on the
forward-filled column.  A zero previous value gives `±inf` (flagged) unless
the current value is also zero (`NaN`, not flagged); a missing previous
value gives `NaN` (not flagged). -/
def rocPairFlag (prev cur : Option ℚ) (thr : ℚ) : Bool :=
  match prev, cur with
  | some p, some x => if p = 0 then decide (x ≠ 0) else decide (thr < |x / p - 1|)
  | _, _ => false

/-- Embeds `detect_rate_of_change_anomalies`:
`series.pct_change().abs() > threshold` with pandas' default forward-fill
of missing values; the first row has no prior value and never flags. -/
def detect_rate_of_change_anomalies (col : List (Option ℚ)) (thr : ℚ) : List Bool :=
  let filled := forwardFill col none
  ((none :: filled).zip filled).map (fun pc => rocPairFlag pc.1 pc.2 thr)

/-- The per-indicator block of the per-country loop: with more than 10
non-missing values the three statistics columns are computed, otherwise the
z-score column is all-missing and both flag columns all-false. -/
noncomputable def indicatorColumns (col : List (Option ℚ)) :
    List (Option ℝ) × List Bool × List Bool :=
  if 10 < (col.filterMap id).length then
    (calculate_z_scores col, detect_iqr_outliers col,
      detect_rate_of_change_anomalies col (1/2))
  else
    (col.map (fun _ => none), col.map (fun _ => false), col.map (fun _ => false))

/-- A row of one country's frame after the per-country loop added the six
derived statistics columns. -/
structure MidRow where
  country_code : String
  reference_date : ℕ
  unemployment_rate_pct : Option ℚ
  inflation_rate_mom_pct : Option ℚ
  unemployment_z_score : Option ℝ
  unemployment_iqr_outlier : Bool
  unemployment_roc_anomaly : Bool
  inflation_z_score : Option ℝ
  inflation_iqr_outlier : Bool
  inflation_roc_anomaly : Bool

/-- The body of the per-country loop of `py_anomaly_detection.model` (both
indicator columns present), on the country's rows sorted by
`reference_date`. -/
noncomputable def anomalyCountry (rows : List InRow) : List MidRow :=
  let u := indicatorColumns (rows.map (fun r => r.unemployment_rate_pct))
  let i := indicatorColumns (rows.map (fun r => r.inflation_rate_mom_pct))
  (List.range rows.length).map (fun t =>
    let r := rows.getD t default
    { country_code := r.country_code
      reference_date := r.reference_date
      unemployment_rate_pct := r.unemployment_rate_pct
      inflation_rate_mom_pct := r.inflation_rate_mom_pct
      unemployment_z_score := u.1.getD t none
      unemployment_iqr_outlier := u.2.1.getD t false
      unemployment_roc_anomaly := u.2.2.getD t false
      inflation_z_score := i.1.getD t none
      inflation_iqr_outlier := i.2.1.getD t false
      inflation_roc_anomaly := i.2.2.getD t false })

/-- A row of the combined result frame after the composite flags and the
severity score have been added. -/
structure FullRow extends MidRow where
  is_unemployment_anomaly : Bool
  is_inflation_anomaly : Bool
  is_any_anomaly : Bool
  anomaly_severity_score : ℝ

/-- Embeds `z.abs() > 3.0` as a row criterion; a missing z-score compares false. -/
noncomputable def zThresholdFlag (z : Option ℝ) : Bool :=
  match z with
  | none => false
  | some v => if 3 < |v| then true else false

/-- One summand of the severity score:
`z.abs().fillna(0).clip(0, 5)`. -/
noncomputable def severityContribution (z : Option ℝ) : ℝ :=
  min 5 (max 0 (match z with | none => 0 | some v => |v|))

/-- The vectorised composite stage of `py_anomaly_detection.model`
(lines 119-140), which acts row-wise on the concatenated frame. -/
noncomputable def compositeRow (m : MidRow) : FullRow :=
  let isU := zThresholdFlag m.unemployment_z_score
      || m.unemployment_iqr_outlier || m.unemployment_roc_anomaly
  let isI := zThresholdFlag m.inflation_z_score
      || m.inflation_iqr_outlier || m.inflation_roc_anomaly
  { toMidRow := m
    is_unemployment_anomaly := isU
    is_inflation_anomaly := isI
    is_any_anomaly := isU || isI
    anomaly_severity_score :=
      min 100 (max 0 (severityContribution m.unemployment_z_score * 10
        + severityContribution m.inflation_z_score * 10)) }

/-- The result frame of `py_anomaly_detection.model` before the final
column selection.  The failure modes are faithful to the source:
`pd.concat([])` raises when the input has no rows, and the composite stage
raises `KeyError` on the first z-score column that the guarded per-country
loop never created (a tracked indicator column absent from the input).
The error checks are hoisted before the pure per-country computation,
which is observationally equivalent because that computation cannot fail. -/
noncomputable def anomalyResultFrame (rel : InputRel) :
    Except String (List FullRow) :=
  let countries := firstAppearance (rel.rows.map (fun r => r.country_code))
  if countries.isEmpty then
    .error "ValueError: No objects to concatenate"
  else if !rel.hasUnemploymentCol then
    .error "KeyError: unemployment_z_score"
  else if !rel.hasInflationCol then
    .error "KeyError: inflation_z_score"
  else
    .ok (((countries.map
        (fun c => anomalyCountry (sortByDate (countryRows rel.rows c)))).flatten).map
      compositeRow)

/-- One row of the anomaly relation after the final column selection
(which drops the intermediate per-criterion flag columns). -/
structure ARow where
  country_code : String
  reference_date : ℕ
  unemployment_rate_pct : Option ℚ
  inflation_rate_mom_pct : Option ℚ
  unemployment_z_score : Option ℝ
  inflation_z_score : Option ℝ
  is_unemployment_anomaly : Bool
  is_inflation_anomaly : Bool
  is_any_anomaly : Bool
  anomaly_severity_score : ℝ

/-- The final `result_df[output_columns]` projection. -/
def selectOutputColumns (f : FullRow) : ARow :=
  { country_code := f.country_code
    reference_date := f.reference_date
    unemployment_rate_pct := f.unemployment_rate_pct
    inflation_rate_mom_pct := f.inflation_rate_mom_pct
    unemployment_z_score := f.unemployment_z_score
    inflation_z_score := f.inflation_z_score
    is_unemployment_anomaly := f.is_unemployment_anomaly
    is_inflation_anomaly := f.is_inflation_anomaly
    is_any_anomaly := f.is_any_anomaly
    anomaly_severity_score := f.anomaly_severity_score }

/-- Embeds `py_anomaly_detection.model`. -/
noncomputable def anomalyModel (rel : InputRel) : Except String (List ARow) :=
  (anomalyResultFrame rel).map (fun out => out.map selectOutputColumns)

/-! ### Forecast engine (`py_unemployment_forecast.py`) -/

/-- Embeds `exponential_smoothing(series, alpha=0.3)`: for fewer than two values
the source returns the last value (`NaN` on an empty series, which the
model never passes — modelled as `0`); otherwise the smoothing recursion
seeded with the first value, which on a one-element list coincides with
that value. -/
def exponential_smoothing (s : List ℚ) (alpha : ℚ) : ℚ :=
  match s with
  | [] => 0
  | x :: rest => rest.foldl (fun acc v => alpha * v + (1 - alpha) * acc) x

/-- One update of Holt's linear-trend recursion. -/
def holtStep (alpha beta : ℚ) (lt : ℚ × ℚ) (v : ℚ) : ℚ × ℚ :=
  let level := alpha * v + (1 - alpha) * (lt.1 + lt.2)
  (level, beta * (level - lt.1) + (1 - beta) * lt.2)

/-- Embeds `holt_linear_trend(series, alpha=0.3, beta=0.1)`: `(level, trend)`.
For fewer than three values the source returns `(last value, 0)` (`NaN` on
an empty series, unreachable in the model, modelled as `0`); otherwise it
seeds `level = y₁`, `trend = y₂ - y₁` and iterates over `y₂..yₙ`. -/
def holt_linear_trend (s : List ℚ) (alpha beta : ℚ) : ℚ × ℚ :=
  match s with
  | [] => (0, 0)
  | [x] => (x, 0)
  | [_, y] => (y, 0)
  | x :: y :: z :: rest => (y :: z :: rest).foldl (holtStep alpha beta) (x, y - x)

/-- Embeds `linear_regression_forecast(series, periods_ahead)`: ordinary least
squares of the values against their positions, extrapolated to the next
`periods` positions.  The series the model passes is already free of
missing values, so the source's NaN mask removes nothing and its inner
length re-check coincides with the outer one. -/
def linear_regression_forecast (s : List ℚ) (periods : ℕ) : List ℚ :=
  if s.length < 3 then List.replicate periods (s.getLastD 0)
  else
    let n := s.length
    let idx : List ℚ := (List.range n).map (fun k => (k : ℚ))
    let xbar := listMean idx
    let ybar := listMean s
    let slope := ((idx.zip s).map (fun p => (p.1 - xbar) * (p.2 - ybar))).sum
        / ((idx.map (fun x => (x - xbar) ^ 2)).sum)
    let intercept := ybar - slope * xbar
    (List.range periods).map (fun j => intercept + slope * ((n + j : ℕ) : ℚ))

/-- First differences `series.diff().dropna()`. -/
def diffList (s : List ℚ) : List ℚ :=
  (s.zip s.tail).map (fun p => p.2 - p.1)

/-- The interval half-width of `calculate_prediction_interval` in its
main branch: `z * std(diff) * sqrt(1 + 1/n)`.  It depends only on the
historical series and the confidence level, not on the forecast value. -/
noncomputable def forecastMargin (hist : List ℚ) (confidence : ℚ) : ℝ :=
  let std : ℝ := Real.sqrt ((sampleVariance (diffList hist) : ℚ) : ℝ)
  let z : ℝ := if confidence = 95/100 then 196/100 else 1645/1000
  z * std * Real.sqrt (1 + 1 / (hist.length : ℝ))

/-- Embeds `calculate_prediction_interval(historical_values, forecast,
confidence=0.95)`: `forecast ± 1` with fewer than five historical points,
else `forecast ± margin`. -/
noncomputable def calculate_prediction_interval (hist : List ℚ) (forecast : ℚ)
    (confidence : ℚ) : ℝ × ℝ :=
  if hist.length < 5 then ((forecast : ℝ) - 1, (forecast : ℝ) + 1)
  else ((forecast : ℝ) - forecastMargin hist confidence,
    (forecast : ℝ) + forecastMargin hist confidence)

/-- Embeds `np.nanmean` of the three method forecasts.  At the only call site all
three components are non-missing (the series has at least 24 non-missing
observations), so `nanmean` reduces to the arithmetic mean. -/
def nanmean3 (a b c : ℚ) : ℚ := (a + b + c) / 3

/-- One forecast row as appended inside the horizon loop.
`forecast_date` is represented by its month index together with an
explicit day-of-month capturing `.replace(day=1)`. -/
structure FRowBase where
  country_code : String
  forecast_date_month : ℕ
  forecast_date_day : ℕ
  forecast_horizon_months : ℕ
  last_actual_date : ℕ
  last_actual_value : ℚ
  forecast_exp_smoothing : ℚ
  forecast_holt : ℚ
  forecast_linear_reg : ℚ
  forecast_ensemble : ℚ
  prediction_interval_lower : ℝ
  prediction_interval_upper : ℝ
  forecast_generated_at : ℤ

/-- A forecast row after the uncertainty-quantification pass added the
interval width and the confidence bucket. -/
structure FRow extends FRowBase where
  prediction_interval_width : ℝ
  forecast_confidence : String

/-- The confidence bucket: width `< 1.0` high, `< 2.0` medium, else low. -/
noncomputable def confidenceBucket (width : ℝ) : String :=
  if width < 1 then "high" else if width < 2 then "medium" else "low"

/-- The body of the per-country loop of `py_unemployment_forecast.model`,
on the country's rows sorted by `reference_date`: the non-missing
unemployment series (indexed by `reference_date`) is extracted; a country
with fewer than 24 observations is skipped; otherwise one row per horizon
1..6 is produced.  `last_date` is `unemp_series.index.max()`. -/
noncomputable def forecastCountry (c : String) (now : ℤ)
    (sortedRows : List InRow) : List FRowBase :=
  let series := sortedRows.filterMap
    (fun r => r.unemployment_rate_pct.map (fun v => (r.reference_date, v)))
  if series.length < 24 then []
  else
    let vals := series.map (fun p => p.2)
    let last_date := (series.map (fun p => p.1)).foldl max 0
    let last_value := vals.getLastD 0
    let es_forecast := exponential_smoothing vals (3/10)
    let lt := holt_linear_trend vals (3/10) (1/10)
    let lr_forecasts := linear_regression_forecast vals 6
    (List.range 6).map (fun (i : ℕ) =>
      let holt_forecast := lt.1 + ((i : ℚ) + 1) * lt.2
      let ensemble := nanmean3 (es_forecast + (i : ℚ) * lt.2) holt_forecast
        (lr_forecasts.getD i 0)
      let interval := calculate_prediction_interval vals ensemble (95/100)
      { country_code := c
        forecast_date_month := last_date + (i + 1)
        forecast_date_day := 1
        forecast_horizon_months := i + 1
        last_actual_date := last_date
        last_actual_value := last_value
        forecast_exp_smoothing := es_forecast + (i : ℚ) * lt.2
        forecast_holt := holt_forecast
        forecast_linear_reg := lr_forecasts.getD i 0
        forecast_ensemble := ensemble
        prediction_interval_lower := interval.1
        prediction_interval_upper := interval.2
        forecast_generated_at := now })

/-- The uncertainty-quantification pass over the result frame. -/
noncomputable def forecastWidthStage (b : FRowBase) : FRow :=
  { toFRowBase := b
    prediction_interval_width :=
      b.prediction_interval_upper - b.prediction_interval_lower
    forecast_confidence :=
      confidenceBucket (b.prediction_interval_upper - b.prediction_interval_lower) }

/-- Embeds `py_unemployment_forecast.model` (the unemployment column present, as
the input contract requires).  `now` models `datetime.now()`, recorded
only in `forecast_generated_at`. -/
noncomputable def forecastModel (rows : List InRow) (now : ℤ) : List FRow :=
  (((firstAppearance (rows.map (fun r => r.country_code))).map
    (fun c => forecastCountry c now (sortByDate (countryRows rows c)))).flatten).map
    forecastWidthStage

/-- The non-missing unemployment values of a country, in date order: the
series the forecast engine computes from. -/
def countryUnempValues (rows : List InRow) (c : String) : List ℚ :=
  (sortByDate (countryRows rows c)).filterMap (fun r => r.unemployment_rate_pct)

/-- The maximum `reference_date` among a country's rows with a non-missing
unemployment value (`unemp_series.index.max()`, order-independent). -/
def lastUnempDate (rows : List InRow) (c : String) : ℕ :=
  (((countryRows rows c).filter (fun r => r.unemployment_rate_pct.isSome)).map
    (fun r => r.reference_date)).foldl max 0

/-- Modelled from the spec: claim C1's wording of the ensemble — the mean
of (smoothed level + `h`·trend from Holt), Holt's horizon-`h` forecast and
the horizon-`h` regression forecast.  Used only to compare the claimed
formula against the model's ensemble. -/
def claimEnsembleForecast (vals : List ℚ) (h : ℕ) : ℚ :=
  nanmean3
    (exponential_smoothing vals (3/10) + (h : ℚ) * (holt_linear_trend vals (3/10) (1/10)).2)
    ((holt_linear_trend vals (3/10) (1/10)).1 + (h : ℚ) * (holt_linear_trend vals (3/10) (1/10)).2)
    ((linear_regression_forecast vals 6).getD (h - 1) 0)

/-! ### Concrete relations used by counterexamples and witnesses -/

/-- Abbreviation for building a fact row. -/
def mkRow (c : String) (m : ℕ) (u i : Option ℚ) : InRow := ⟨c, m, u, i⟩

/-- Twenty-four months of perfectly linear unemployment for one country. -/
def rowsLinear24 : List InRow :=
  (List.range 24).map (fun t => mkRow "DE" t (some (t : ℚ)) none)

/-- Five months of a constant unemployment rate for one country (below
both the 11-sample anomaly threshold and the 24-month forecast minimum). -/
def relConst5 : InputRel :=
  ⟨(List.range 5).map (fun t => mkRow "DE" t (some 5) none), true, true⟩

/-- Twelve months of a constant unemployment rate for one country (above
the 11-sample anomaly threshold). -/
def relConst12 : InputRel :=
  ⟨(List.range 12).map (fun t => mkRow "DE" t (some 7) none), true, true⟩

/-- A relation whose schema lacks the `unemployment_rate_pct` column. -/
def relNoUnempCol : InputRel :=
  ⟨[mkRow "DE" 0 none (some 1)], false, true⟩

/-- Twelve rows of one country in date order, values alternating `1, 2`:
no two date-adjacent values are equal. -/
def rowsAlternating : List InRow :=
  (List.range 12).map (fun t => mkRow "DE" t (some (if t % 2 = 0 then 1 else 2)) none)

/-- The same twelve rows with the even-dated rows listed before the
odd-dated ones: in input order the equal values are adjacent. -/
def rowsGrouped : List InRow :=
  (List.range 6).map (fun t => mkRow "DE" (2 * t) (some 1) none)
    ++ (List.range 6).map (fun t => mkRow "DE" (2 * t + 1) (some 2) none)

/-- Two countries, latest `reference_date` at month index 1: "DE" has all
values present, "FR" has half of them missing. -/
def rowsTwoCountries : List InRow :=
  [mkRow "DE" 0 (some 5) (some 1), mkRow "DE" 1 (some 5) (some 1),
   mkRow "FR" 0 (some 5) (some 1), mkRow "FR" 1 none none]

/-- The run-time-dependent quality fields named by claim C3. -/
def timeSensitiveQProjection (r : QRow) : ℚ × ℚ × String × String × Bool :=
  (r.timeliness_score, r.overall_quality_score, r.quality_grade,
    r.primary_issue, r.requires_attention)

/-- Every quality field except the snapshot timestamp and the
timeliness-derived fields. -/
def stableQProjection (r : QRow) :
    String × ℕ × ℚ × ℚ × ℚ × ℚ × ℚ × ℚ × ℚ × Option ℕ :=
  (r.country_code, r.total_records, r.completeness_score,
    r.unemployment_completeness, r.inflation_completeness,
    r.validity_score, r.unemployment_validity, r.inflation_validity,
    r.consistency_score, r.latest_data_date)

/-- Every forecast field except the generation timestamp. -/
noncomputable def stableFProjection (r : FRow) :
    String × ℕ × ℕ × ℕ × ℕ × ℚ × ℚ × ℚ × ℚ × ℚ × ℝ × ℝ × ℝ × String :=
  (r.country_code, r.forecast_date_month, r.forecast_date_day,
    r.forecast_horizon_months, r.last_actual_date, r.last_actual_value,
    r.forecast_exp_smoothing, r.forecast_holt, r.forecast_linear_reg,
    r.forecast_ensemble, r.prediction_interval_lower,
    r.prediction_interval_upper, r.prediction_interval_width,
    r.forecast_confidence)

/-! ### Basic lemmas about the shared substrate -/

lemma mem_firstAppearanceAux {x : String} (seen l : List String) :
    x ∈ firstAppearanceAux seen l ↔ x ∈ l ∧ x ∉ seen := by
  induction l generalizing seen with
  | nil => simp [firstAppearanceAux]
  | cons c rest ih =>
    by_cases hc : c ∈ seen
    · rw [firstAppearanceAux, if_pos hc, ih]
      simp only [List.mem_cons]
      constructor
      · exact fun h => ⟨Or.inr h.1, h.2⟩
      · rintro ⟨rfl | h1, h2⟩
        · exact absurd hc h2
        · exact ⟨h1, h2⟩
    · rw [firstAppearanceAux, if_neg hc]
      simp only [List.mem_cons, ih]
      constructor
      · rintro (rfl | ⟨h1, h2⟩)
        · exact ⟨Or.inl rfl, hc⟩
        · exact ⟨Or.inr h1, fun hx => h2 (Or.inr hx)⟩
      · rintro ⟨rfl | h1, h2⟩
        · exact Or.inl rfl
        · by_cases hxc : x = c
          · exact Or.inl hxc
          · refine Or.inr ⟨h1, fun hx => ?_⟩
            rcases hx with h | h
            · exact hxc h
            · exact h2 h

lemma mem_firstAppearance {x : String} {l : List String} :
    x ∈ firstAppearance l ↔ x ∈ l := by
  rw [firstAppearance, mem_firstAppearanceAux]
  simp

lemma nodup_firstAppearanceAux :
    ∀ (seen l : List String), (firstAppearanceAux seen l).Nodup
  | seen, [] => by simp [firstAppearanceAux]
  | seen, c :: rest => by
    by_cases hc : c ∈ seen
    · rw [firstAppearanceAux, if_pos hc]
      exact nodup_firstAppearanceAux seen rest
    · rw [firstAppearanceAux, if_neg hc]
      refine List.nodup_cons.mpr ⟨fun hmem => ?_, nodup_firstAppearanceAux (c :: seen) rest⟩
      exact ((mem_firstAppearanceAux (c :: seen) rest).mp hmem).2 (List.mem_cons_self c seen)

lemma nodup_firstAppearance (l : List String) : (firstAppearance l).Nodup :=
  nodup_firstAppearanceAux [] l

lemma sortByDate_perm (rows : List InRow) :
    List.Perm (sortByDate rows) rows :=
  List.perm_insertionSort _ rows

lemma mem_countryRows {rows : List InRow} {c : String} {r : InRow} :
    r ∈ countryRows rows c ↔ r ∈ rows ∧ r.country_code = c := by
  simp [countryRows, List.mem_filter]

lemma mem_sortByDate {rows : List InRow} {r : InRow} :
    r ∈ sortByDate rows ↔ r ∈ rows :=
  (sortByDate_perm rows).mem_iff

/-! ### Claim theorems -/

/-- Claim C8 (confirmed): `quality_grade` is the exact inclusive-threshold
step function of `overall_quality_score` — the model assigns every record
`quality_grade_of` of its overall score, the grade letters characterise
the score exactly at the 90/80/70/60 boundaries, and in particular a score
of 90 grades `A` while 89.999 grades `B`. -/
theorem C8_quality_grade_step_function :
    (∀ (rows : List InRow) (now : ℤ),
      (qualityModel rows now).Forall
        (fun r => r.quality_grade = quality_grade_of r.overall_quality_score))
    ∧ (∀ q : ℚ, quality_grade_of q = "A" ↔ 90 ≤ q)
    ∧ (∀ q : ℚ, quality_grade_of q = "B" ↔ 80 ≤ q ∧ q < 90)
    ∧ (∀ q : ℚ, quality_grade_of q = "C" ↔ 70 ≤ q ∧ q < 80)
    ∧ (∀ q : ℚ, quality_grade_of q = "D" ↔ 60 ≤ q ∧ q < 70)
    ∧ (∀ q : ℚ, quality_grade_of q = "F" ↔ q < 60)
    ∧ quality_grade_of 90 = "A" ∧ quality_grade_of (89999/1000) = "B" := by
  refine ⟨?_, ?_, ?_, ?_, ?_, ?_, ?_, ?_⟩
  · intro rows now
    rw [List.forall_iff_forall_mem]
    intro r hr
    simp only [qualityModel, List.map_map, List.mem_map, Function.comp] at hr
    obtain ⟨c, -, rfl⟩ := hr
    rfl
  · intro q
    constructor
    · intro hL
      unfold quality_grade_of at hL
      split_ifs at hL with h1 h2 h3 h4 <;> first | exact h1 | exact absurd hL (by decide)
    · intro h
      unfold quality_grade_of
      rw [if_pos h]
  · intro q
    constructor
    · intro hL
      unfold quality_grade_of at hL
      split_ifs at hL with h1 h2 h3 h4 <;>
        first | exact ⟨h2, by linarith⟩ | exact absurd hL (by decide)
    · rintro ⟨hlo, hhi⟩
      unfold quality_grade_of
      rw [if_neg (by linarith), if_pos hlo]
  · intro q
    constructor
    · intro hL
      unfold quality_grade_of at hL
      split_ifs at hL with h1 h2 h3 h4 <;>
        first | exact ⟨h3, by linarith⟩ | exact absurd hL (by decide)
    · rintro ⟨hlo, hhi⟩
      unfold quality_grade_of
      rw [if_neg (by linarith), if_neg (by linarith), if_pos hlo]
  · intro q
    constructor
    · intro hL
      unfold quality_grade_of at hL
      split_ifs at hL with h1 h2 h3 h4 <;>
        first | exact ⟨h4, by linarith⟩ | exact absurd hL (by decide)
    · rintro ⟨hlo, hhi⟩
      unfold quality_grade_of
      rw [if_neg (by linarith), if_neg (by linarith), if_neg (by linarith), if_pos hlo]
  · intro q
    constructor
    · intro hL
      unfold quality_grade_of at hL
      split_ifs at hL with h1 h2 h3 h4 <;> first | linarith | exact absurd hL (by decide)
    · intro h
      unfold quality_grade_of
      rw [if_neg (by linarith), if_neg (by linarith), if_neg (by linarith),
        if_neg (by linarith)]
  · norm_num [quality_grade_of]
  · norm_num [quality_grade_of]

/-- Claim C2 (code bug): on a relation whose schema lacks the
`unemployment_rate_pct` column, the anomaly model does not degrade
gracefully — building the composite flag reads the never-created
`unemployment_z_score` column and the run fails with a `KeyError`. -/
theorem C2_missing_column_is_fatal :
    anomalyModel relNoUnempCol = .error "KeyError: unemployment_z_score" := by
  rfl

lemma calculate_timeliness_latest_stable (rows : List InRow) (now1 now2 : ℤ) :
    (calculate_timeliness rows now1).2.2 = (calculate_timeliness rows now2).2.2 := by
  unfold calculate_timeliness
  cases (rows.map (fun r => r.reference_date)).max? with
  | none => rfl
  | some latest => dsimp only; split_ifs <;> rfl

lemma forecastCountry_time_stable (c : String) (now1 now2 : ℤ) (s : List InRow) :
    (forecastCountry c now1 s).map (fun b => stableFProjection (forecastWidthStage b))
      = (forecastCountry c now2 s).map (fun b => stableFProjection (forecastWidthStage b)) := by
  by_cases h : (s.filterMap
      (fun r => r.unemployment_rate_pct.map (fun v => (r.reference_date, v)))).length < 24
  · simp only [forecastCountry, if_pos h]
  · simp only [forecastCountry, if_neg h, List.map_map]
    apply List.map_congr_left
    intro i _
    rfl

/-- Claim C3 (corrected): with the run time made explicit, every quality
field except the snapshot timestamp and the timeliness-derived fields, and
every forecast field except the generation timestamp, is independent of
the wall-clock time of the run. -/
theorem C3_time_independence_outside_timeliness :
    ∀ (rows : List InRow) (now1 now2 : ℤ),
      (qualityModel rows now1).map stableQProjection
          = (qualityModel rows now2).map stableQProjection
      ∧ (forecastModel rows now1).map stableFProjection
          = (forecastModel rows now2).map stableFProjection := by
  intro rows now1 now2
  constructor
  · unfold qualityModel
    simp only [List.map_map]
    apply List.map_congr_left
    intro c _
    simp only [Function.comp_apply, stableQProjection, qualityPostStage, qualityRecordFor]
    rw [calculate_timeliness_latest_stable (countryRows rows c) now1 now2]
  · unfold forecastModel
    simp only [List.map_map]
    rw [List.map_flatten, List.map_flatten]
    congr 1
    simp only [List.map_map]
    apply List.map_congr_left
    intro c _
    simp only [Function.comp_apply]
    have := forecastCountry_time_stable c now1 now2 (sortByDate (countryRows rows c))
    simpa [Function.comp] using this

set_option maxRecDepth 4000 in
/-- Claim C3 (counterexample): two runs of the quality scorer on the same
input relation at different wall-clock times (10 days after the latest
reference date versus 1000 days after) disagree in `timeliness_score` and
in the derived non-timestamp fields `overall_quality_score`,
`quality_grade`, `primary_issue` and `requires_attention`. -/
theorem C3_counterexample :
    (qualityModel rowsTwoCountries 41).map timeSensitiveQProjection
        = [(100, 100, "A", "none", false), (100, 85, "B", "completeness", false)]
      ∧ (qualityModel rowsTwoCountries 1031).map timeSensitiveQProjection
        = [(0, 75, "C", "timeliness", false), (0, 60, "D", "completeness", true)]
      ∧ (qualityModel rowsTwoCountries 41).map timeSensitiveQProjection
        ≠ (qualityModel rowsTwoCountries 1031).map timeSensitiveQProjection := by
  have hDE41 : timeSensitiveQProjection
      (qualityPostStage (qualityRecordFor rowsTwoCountries "DE" 41))
      = (100, 100, "A", "none", false) := by
    simp only [timeSensitiveQProjection, qualityPostStage, qualityRecordFor]
    norm_num [calculate_timeliness, calculate_validity, calculate_consistency,
      completenessPct, validityPct, consistencyScore, adjacentEqualCount, listMean,
      quality_grade_of, primaryIssueOf, mkRow, List.filterMap_cons, id_eq,
      show countryRows rowsTwoCountries "DE"
        = [mkRow "DE" 0 (some 5) (some 1), mkRow "DE" 1 (some 5) (some 1)] from rfl,
      show firstOfMonthDayNumber 1 = 31 from rfl]
  have hFR41 : timeSensitiveQProjection
      (qualityPostStage (qualityRecordFor rowsTwoCountries "FR" 41))
      = (100, 85, "B", "completeness", false) := by
    simp only [timeSensitiveQProjection, qualityPostStage, qualityRecordFor]
    norm_num [calculate_timeliness, calculate_validity, calculate_consistency,
      completenessPct, validityPct, consistencyScore, adjacentEqualCount, listMean,
      quality_grade_of, primaryIssueOf, mkRow, List.filterMap_cons, id_eq,
      show countryRows rowsTwoCountries "FR"
        = [mkRow "FR" 0 (some 5) (some 1), mkRow "FR" 1 none none] from rfl,
      show firstOfMonthDayNumber 1 = 31 from rfl]
  have hDE2 : timeSensitiveQProjection
      (qualityPostStage (qualityRecordFor rowsTwoCountries "DE" 1031))
      = (0, 75, "C", "timeliness", false) := by
    simp only [timeSensitiveQProjection, qualityPostStage, qualityRecordFor]
    norm_num [calculate_timeliness, calculate_validity, calculate_consistency,
      completenessPct, validityPct, consistencyScore, adjacentEqualCount, listMean,
      quality_grade_of, primaryIssueOf, mkRow, List.filterMap_cons, id_eq,
      show countryRows rowsTwoCountries "DE"
        = [mkRow "DE" 0 (some 5) (some 1), mkRow "DE" 1 (some 5) (some 1)] from rfl,
      show firstOfMonthDayNumber 1 = 31 from rfl]
  have hFR2 : timeSensitiveQProjection
      (qualityPostStage (qualityRecordFor rowsTwoCountries "FR" 1031))
      = (0, 60, "D", "completeness", true) := by
    simp only [timeSensitiveQProjection, qualityPostStage, qualityRecordFor]
    norm_num [calculate_timeliness, calculate_validity, calculate_consistency,
      completenessPct, validityPct, consistencyScore, adjacentEqualCount, listMean,
      quality_grade_of, primaryIssueOf, mkRow, List.filterMap_cons, id_eq,
      show countryRows rowsTwoCountries "FR"
        = [mkRow "FR" 0 (some 5) (some 1), mkRow "FR" 1 none none] from rfl,
      show firstOfMonthDayNumber 1 = 31 from rfl]
  have hm1 : qualityModel rowsTwoCountries 41
      = [qualityPostStage (qualityRecordFor rowsTwoCountries "DE" 41),
         qualityPostStage (qualityRecordFor rowsTwoCountries "FR" 41)] := rfl
  have hm2 : qualityModel rowsTwoCountries 1031
      = [qualityPostStage (qualityRecordFor rowsTwoCountries "DE" 1031),
         qualityPostStage (qualityRecordFor rowsTwoCountries "FR" 1031)] := rfl
  have h1 : (qualityModel rowsTwoCountries 41).map timeSensitiveQProjection
      = [(100, 100, "A", "none", false), (100, 85, "B", "completeness", false)] := by
    rw [hm1, List.map_cons, List.map_cons, List.map_nil, hDE41, hFR41]
  have h2 : (qualityModel rowsTwoCountries 1031).map timeSensitiveQProjection
      = [(0, 75, "C", "timeliness", false), (0, 60, "D", "completeness", true)] := by
    rw [hm2, List.map_cons, List.map_cons, List.map_nil, hDE2, hFR2]
  refine ⟨h1, h2, ?_⟩
  rw [h1, h2]
  intro h
  have := List.head_eq_of_cons_eq h
  simp [Prod.ext_iff] at this

/-- Claim C9 (code bug): the quality scorer, unlike the other two
analyzers, never sorts a country's rows by `reference_date`, so its
consistency dimension is computed in input row order: two input relations
holding the same twelve rows — values alternating `1, 2` in date order —
score consistency `100` when the rows arrive in date order but `0` when
the equal values are adjacent in input order. -/
theorem C9_consistency_depends_on_row_order :
    List.Perm rowsGrouped rowsAlternating
    ∧ (qualityModel rowsAlternating 0).map (fun r => r.consistency_score) = [100]
    ∧ (qualityModel rowsGrouped 0).map (fun r => r.consistency_score) = [0] := by
  refine ⟨by decide, ?_, ?_⟩
  · rw [show qualityModel rowsAlternating 0
        = [qualityPostStage (qualityRecordFor rowsAlternating "DE" 0)] from rfl,
      List.map_cons, List.map_nil]
    norm_num [qualityPostStage, qualityRecordFor, calculate_consistency,
      consistencyScore, listMean,
      show ((countryRows rowsAlternating "DE").map
          (fun r => r.unemployment_rate_pct)).filterMap id
        = [1, 2, 1, 2, 1, 2, 1, 2, 1, 2, 1, 2] from rfl,
      show ((countryRows rowsAlternating "DE").map
          (fun r => r.inflation_rate_mom_pct)).filterMap id = [] from rfl,
      show adjacentEqualCount [1, 2, 1, 2, 1, 2, 1, 2, 1, 2, 1, 2] = 0 from rfl]
  · rw [show qualityModel rowsGrouped 0
        = [qualityPostStage (qualityRecordFor rowsGrouped "DE" 0)] from rfl,
      List.map_cons, List.map_nil]
    norm_num [qualityPostStage, qualityRecordFor, calculate_consistency,
      consistencyScore, listMean,
      show ((countryRows rowsGrouped "DE").map
          (fun r => r.unemployment_rate_pct)).filterMap id
        = [1, 1, 1, 1, 1, 1, 2, 2, 2, 2, 2, 2] from rfl,
      show ((countryRows rowsGrouped "DE").map
          (fun r => r.inflation_rate_mom_pct)).filterMap id = [] from rfl,
      show adjacentEqualCount [1, 1, 1, 1, 1, 1, 2, 2, 2, 2, 2, 2] = 10 from rfl]

/-! ### Forecast interval lemmas -/

lemma forecastMargin_nonneg (hist : List ℚ) (confidence : ℚ) :
    0 ≤ forecastMargin hist confidence := by
  unfold forecastMargin
  split_ifs <;> positivity

lemma cpi_lower_le_upper (hist : List ℚ) (f confidence : ℚ) :
    (calculate_prediction_interval hist f confidence).1
      ≤ (calculate_prediction_interval hist f confidence).2 := by
  unfold calculate_prediction_interval
  split_ifs
  · simp only
    linarith
  · simp only
    have := forecastMargin_nonneg hist confidence
    linarith

lemma cpi_width_const (hist : List ℚ) (f g confidence : ℚ) :
    (calculate_prediction_interval hist f confidence).2
        - (calculate_prediction_interval hist f confidence).1
      = (calculate_prediction_interval hist g confidence).2
        - (calculate_prediction_interval hist g confidence).1 := by
  unfold calculate_prediction_interval
  split_ifs <;> simp only <;> ring

lemma forecastCountry_country {c : String} {now : ℤ} {s : List InRow} {b : FRowBase}
    (hb : b ∈ forecastCountry c now s) : b.country_code = c := by
  by_cases h : (s.filterMap
      (fun r => r.unemployment_rate_pct.map (fun v => (r.reference_date, v)))).length < 24
  · simp only [forecastCountry, if_pos h] at hb
    exact absurd hb (List.not_mem_nil b)
  · simp only [forecastCountry, if_neg h, List.mem_map] at hb
    obtain ⟨i, -, rfl⟩ := hb
    rfl

lemma forecastCountry_lower_le_upper {c : String} {now : ℤ} {s : List InRow} {b : FRowBase}
    (hb : b ∈ forecastCountry c now s) :
    b.prediction_interval_lower ≤ b.prediction_interval_upper := by
  by_cases h : (s.filterMap
      (fun r => r.unemployment_rate_pct.map (fun v => (r.reference_date, v)))).length < 24
  · simp only [forecastCountry, if_pos h] at hb
    exact absurd hb (List.not_mem_nil b)
  · simp only [forecastCountry, if_neg h, List.mem_map] at hb
    obtain ⟨i, -, rfl⟩ := hb
    exact cpi_lower_le_upper _ _ _

lemma forecastCountry_width_eq {c : String} {now : ℤ} {s : List InRow} {b1 b2 : FRowBase}
    (h1 : b1 ∈ forecastCountry c now s) (h2 : b2 ∈ forecastCountry c now s) :
    b1.prediction_interval_upper - b1.prediction_interval_lower
      = b2.prediction_interval_upper - b2.prediction_interval_lower := by
  by_cases h : (s.filterMap
      (fun r => r.unemployment_rate_pct.map (fun v => (r.reference_date, v)))).length < 24
  · simp only [forecastCountry, if_pos h] at h1
    exact absurd h1 (List.not_mem_nil b1)
  · simp only [forecastCountry, if_neg h, List.mem_map] at h1 h2
    obtain ⟨i, -, rfl⟩ := h1
    obtain ⟨j, -, rfl⟩ := h2
    exact cpi_width_const _ _ _ _

lemma forecastModel_mem_structure {rows : List InRow} {now : ℤ} {r : FRow}
    (hr : r ∈ forecastModel rows now) :
    ∃ b ∈ forecastCountry r.country_code now
        (sortByDate (countryRows rows r.country_code)), r = forecastWidthStage b := by
  unfold forecastModel at hr
  obtain ⟨b, hb, rfl⟩ := List.mem_map.mp hr
  obtain ⟨l, hl, hbl⟩ := List.mem_flatten.mp hb
  obtain ⟨c, -, rfl⟩ := List.mem_map.mp hl
  have hc : b.country_code = c := forecastCountry_country hbl
  have : (forecastWidthStage b).country_code = c := hc
  rw [this, ← hc]
  exact ⟨b, by rw [hc]; exact hbl, rfl⟩

/-- Claim C7 (confirmed): every forecast row of every run satisfies
`prediction_interval_lower ≤ prediction_interval_upper`: the interval is
`forecast ± 1` for short histories and otherwise `forecast ± margin` with
a nonnegative margin `z·σ·sqrt(1 + 1/n)`. -/
theorem C7_interval_upper_ge_lower :
    ∀ (rows : List InRow) (now : ℤ),
      (forecastModel rows now).Forall
        (fun r => r.prediction_interval_lower ≤ r.prediction_interval_upper) := by
  intro rows now
  rw [List.forall_iff_forall_mem]
  intro r hr
  obtain ⟨b, hb, rfl⟩ := forecastModel_mem_structure hr
  exact forecastCountry_lower_le_upper hb

/-- Claim C10 (confirmed): the prediction-interval margin of
`calculate_prediction_interval` depends only on the historical series and
the confidence level — not on the forecast value, hence not on the horizon
— so the interval width is the same for any two forecasts from the same
history, and all forecast rows of any one country produced in one run
share the same `prediction_interval_width` and the same
`forecast_confidence` bucket. -/
theorem C10_width_and_confidence_constant_per_country :
    (∀ (hist : List ℚ) (f g confidence : ℚ),
      (calculate_prediction_interval hist f confidence).2
          - (calculate_prediction_interval hist f confidence).1
        = (calculate_prediction_interval hist g confidence).2
          - (calculate_prediction_interval hist g confidence).1)
    ∧ ∀ (rows : List InRow) (now : ℤ) (c : String),
        ((forecastModel rows now).filter
            (fun r => decide (r.country_code = c))).Pairwise
          (fun a b => a.prediction_interval_width = b.prediction_interval_width
            ∧ a.forecast_confidence = b.forecast_confidence) := by
  refine ⟨cpi_width_const, ?_⟩
  intro rows now c
  apply List.pairwise_of_forall_mem_list
  intro a ha b hb
  have ha2 := List.mem_filter.mp ha
  have hb2 := List.mem_filter.mp hb
  have hac : a.country_code = c := by simpa using ha2.2
  have hbc : b.country_code = c := by simpa using hb2.2
  obtain ⟨ba, hba, rfl⟩ := forecastModel_mem_structure ha2.1
  obtain ⟨bb, hbb, rfl⟩ := forecastModel_mem_structure hb2.1
  rw [hac] at hba
  rw [hbc] at hbb
  have hw : ba.prediction_interval_upper - ba.prediction_interval_lower
      = bb.prediction_interval_upper - bb.prediction_interval_lower :=
    forecastCountry_width_eq hba hbb
  constructor
  · exact hw
  · show confidenceBucket _ = confidenceBucket _
    rw [hw]

/-! ### Filtering one country's rows out of a per-country concatenation -/

lemma flatten_filter_of_nodup {β : Type} (cf : β → String) (f : String → List β)
    (hf : ∀ c b, b ∈ f c → cf b = c) :
    ∀ (cs : List String), cs.Nodup → ∀ c : String,
      ((cs.map f).flatten).filter (fun b => decide (cf b = c))
        = if c ∈ cs then f c else [] := by
  intro cs
  induction cs with
  | nil => intro _ c; simp
  | cons c0 rest ih =>
    intro hnd c
    have hnd' := List.nodup_cons.mp hnd
    rw [List.map_cons, List.flatten_cons, List.filter_append, ih hnd'.2 c]
    by_cases hc : c = c0
    · subst hc
      have h1 : (f c).filter (fun b => decide (cf b = c)) = f c := by
        rw [List.filter_eq_self]
        intro b hb
        simp [hf c b hb]
      rw [h1, if_neg hnd'.1, if_pos (List.mem_cons_self c rest), List.append_nil]
    · have h1 : (f c0).filter (fun b => decide (cf b = c)) = [] := by
        rw [List.filter_eq_nil_iff]
        intro b hb
        simp only [decide_eq_true_eq, hf c0 b hb]
        exact fun h => hc h.symm
      rw [h1, List.nil_append]
      by_cases hm : c ∈ rest
      · rw [if_pos hm, if_pos (List.mem_cons_of_mem _ hm)]
      · rw [if_neg hm, if_neg (by
          intro h
          rcases List.mem_cons.mp h with h | h
          · exact hc h
          · exact hm h)]

lemma forecastModel_filter (rows : List InRow) (now : ℤ) (c : String)
    (hc : c ∈ rows.map (fun r => r.country_code)) :
    (forecastModel rows now).filter (fun r => decide (r.country_code = c))
      = (forecastCountry c now (sortByDate (countryRows rows c))).map
          forecastWidthStage := by
  unfold forecastModel
  rw [List.filter_map]
  have hpred : ((fun r : FRow => decide (r.country_code = c)) ∘ forecastWidthStage)
      = (fun b : FRowBase => decide (b.country_code = c)) := rfl
  rw [hpred,
    flatten_filter_of_nodup FRowBase.country_code
      (fun c' => forecastCountry c' now (sortByDate (countryRows rows c')))
      (fun c' b hb => forecastCountry_country hb)
      _ (nodup_firstAppearance _) c,
    if_pos (mem_firstAppearance.mpr hc)]

/-! ### The unemployment series extracted by the forecast engine -/

lemma seriesPair_length (s : List InRow) :
    (s.filterMap
      (fun r => r.unemployment_rate_pct.map (fun v => (r.reference_date, v)))).length
      = s.countP (fun r => r.unemployment_rate_pct.isSome) := by
  induction s with
  | nil => rfl
  | cons r t ih =>
    cases h : r.unemployment_rate_pct <;>
      simp [List.filterMap_cons, h, List.countP_cons, ih]

lemma seriesPair_vals (s : List InRow) :
    (s.filterMap
      (fun r => r.unemployment_rate_pct.map (fun v => (r.reference_date, v)))).map Prod.snd
      = s.filterMap (fun r => r.unemployment_rate_pct) := by
  induction s with
  | nil => rfl
  | cons r t ih =>
    cases h : r.unemployment_rate_pct <;> simp [List.filterMap_cons, h, ih]

lemma seriesPair_dates (s : List InRow) :
    (s.filterMap
      (fun r => r.unemployment_rate_pct.map (fun v => (r.reference_date, v)))).map Prod.fst
      = (s.filter (fun r => r.unemployment_rate_pct.isSome)).map
          (fun r => r.reference_date) := by
  induction s with
  | nil => rfl
  | cons r t ih =>
    cases h : r.unemployment_rate_pct <;>
      simp [List.filterMap_cons, List.filter_cons, h, ih]

lemma foldl_max_perm {l1 l2 : List ℕ} (h : List.Perm l1 l2) :
    ∀ a : ℕ, l1.foldl max a = l2.foldl max a := by
  induction h with
  | nil => intro a; rfl
  | cons x _ ih => intro a; simp only [List.foldl_cons]; exact ih _
  | swap x y l =>
    intro a
    simp only [List.foldl_cons]
    rw [sup_right_comm]
  | trans _ _ ih1 ih2 => intro a; rw [ih1 a, ih2 a]

lemma sorted_series_count (rows : List InRow) (c : String) :
    ((sortByDate (countryRows rows c)).filterMap
      (fun r => r.unemployment_rate_pct.map (fun v => (r.reference_date, v)))).length
      = unempObsCount rows c := by
  rw [seriesPair_length]
  exact (sortByDate_perm (countryRows rows c)).countP_eq _

lemma sorted_series_last (rows : List InRow) (c : String) :
    (((sortByDate (countryRows rows c)).filterMap
      (fun r => r.unemployment_rate_pct.map (fun v => (r.reference_date, v)))).map
        Prod.fst).foldl max 0
      = lastUnempDate rows c := by
  rw [seriesPair_dates]
  exact foldl_max_perm
    (((sortByDate_perm (countryRows rows c)).filter _).map _) 0

lemma country_mem_of_obsCount {rows : List InRow} {c : String}
    (h : 0 < unempObsCount rows c) :
    c ∈ rows.map (fun r => r.country_code) := by
  unfold unempObsCount at h
  obtain ⟨r, hr, -⟩ := List.countP_pos_iff.mp h
  have hr2 := mem_countryRows.mp hr
  exact List.mem_map.mpr ⟨r, hr2.1, hr2.2⟩

/-- Claim C6 (confirmed): a country whose unemployment series has at least
24 non-missing observations gets exactly six forecast rows, whose
`forecast_date`s are first-of-month dates increasing by exactly one
calendar month per row, starting the month after the country's last
observed date. -/
theorem C6_six_monthly_forecast_dates :
    ∀ (rows : List InRow) (now : ℤ) (c : String),
      24 ≤ unempObsCount rows c →
      ((forecastModel rows now).filter (fun r => decide (r.country_code = c))).map
          (fun r => (r.forecast_date_month, r.forecast_date_day))
        = (List.range 6).map (fun i => (lastUnempDate rows c + (i + 1), 1)) := by
  intro rows now c h24
  have hc : c ∈ rows.map (fun r => r.country_code) :=
    country_mem_of_obsCount (by omega)
  rw [forecastModel_filter rows now c hc]
  have hnot : ¬ ((sortByDate (countryRows rows c)).filterMap
      (fun r => r.unemployment_rate_pct.map (fun v => (r.reference_date, v)))).length < 24 := by
    rw [sorted_series_count]
    omega
  simp only [forecastCountry, if_neg hnot, List.map_map]
  apply List.map_congr_left
  intro i _
  show (_, 1) = (_, 1)
  rw [Prod.mk.injEq]
  refine ⟨?_, rfl⟩
  show (((sortByDate (countryRows rows c)).filterMap
      (fun r => r.unemployment_rate_pct.map (fun v => (r.reference_date, v)))).map
        (fun p => p.1)).foldl max 0 + (i + 1) = lastUnempDate rows c + (i + 1)
  rw [show ((fun p : ℕ × ℚ => p.1) = (Prod.fst : ℕ × ℚ → ℕ)) from rfl,
    sorted_series_last]

/-- Witness for C6: on 24 months of linear unemployment for one country
the hypothesis holds and so exactly six first-of-month forecast dates,
one month apart, starting the month after month 23, are produced. -/
theorem C6_six_monthly_forecast_dates_witness :
    24 ≤ unempObsCount rowsLinear24 "DE"
    ∧ ((forecastModel rowsLinear24 0).filter
          (fun r => decide (r.country_code = "DE"))).map
        (fun r => (r.forecast_date_month, r.forecast_date_day))
      = (List.range 6).map (fun i => (lastUnempDate rowsLinear24 "DE" + (i + 1), 1)) :=
  ⟨by decide, C6_six_monthly_forecast_dates rowsLinear24 0 "DE" (by decide)⟩

lemma forecastModel_filter_horizon_ensemble (rows : List InRow) (now : ℤ) (c : String)
    (h24 : 24 ≤ unempObsCount rows c) :
    ((forecastModel rows now).filter (fun r => decide (r.country_code = c))).map
        (fun r => (r.forecast_horizon_months, r.forecast_ensemble))
      = (List.range 6).map (fun (i : ℕ) =>
          (i + 1,
            nanmean3
              (exponential_smoothing (countryUnempValues rows c) (3/10)
                + (i : ℚ) * (holt_linear_trend (countryUnempValues rows c) (3/10) (1/10)).2)
              ((holt_linear_trend (countryUnempValues rows c) (3/10) (1/10)).1
                + ((i : ℚ) + 1)
                  * (holt_linear_trend (countryUnempValues rows c) (3/10) (1/10)).2)
              ((linear_regression_forecast (countryUnempValues rows c) 6).getD i 0))) := by
  have hc : c ∈ rows.map (fun r => r.country_code) :=
    country_mem_of_obsCount (by omega)
  rw [forecastModel_filter rows now c hc]
  have hnot : ¬ ((sortByDate (countryRows rows c)).filterMap
      (fun r => r.unemployment_rate_pct.map (fun v => (r.reference_date, v)))).length < 24 := by
    rw [sorted_series_count]
    omega
  have hvals : List.map (fun p : ℕ × ℚ => p.2)
      ((sortByDate (countryRows rows c)).filterMap
        (fun r => r.unemployment_rate_pct.map (fun v => (r.reference_date, v))))
      = countryUnempValues rows c := by
    rw [show (fun p : ℕ × ℚ => p.2) = (Prod.snd : ℕ × ℚ → ℚ) from rfl, seriesPair_vals]
    rfl
  simp only [forecastCountry, if_neg hnot, List.map_map, hvals]
  apply List.map_congr_left
  intro i _
  rfl

/-- Claim C1 (corrected, amended form): for every eligible country and
every horizon `h` in 1..6, the ensemble forecast is the mean of the
exponential-smoothing level plus `(h-1)`·trend (trend from Holt), Holt's
level plus `h`·trend, and the linear-regression forecast (all three
components are present for an eligible country, so none is excluded from
the mean). -/
theorem C1_ensemble_formula :
    ∀ (rows : List InRow) (now : ℤ) (c : String),
      24 ≤ unempObsCount rows c →
      ((forecastModel rows now).filter (fun r => decide (r.country_code = c))).map
          (fun r => (r.forecast_horizon_months, r.forecast_ensemble))
        = (List.range 6).map (fun (i : ℕ) =>
            (i + 1,
              nanmean3
                (exponential_smoothing (countryUnempValues rows c) (3/10)
                  + (i : ℚ) * (holt_linear_trend (countryUnempValues rows c) (3/10) (1/10)).2)
                ((holt_linear_trend (countryUnempValues rows c) (3/10) (1/10)).1
                  + ((i : ℚ) + 1)
                    * (holt_linear_trend (countryUnempValues rows c) (3/10) (1/10)).2)
                ((linear_regression_forecast (countryUnempValues rows c) 6).getD i 0))) :=
  fun rows now c h24 => forecastModel_filter_horizon_ensemble rows now c h24

/-- Witness for C1: the amended ensemble formula instantiated on 24 months
of linear unemployment for one country. -/
theorem C1_ensemble_formula_witness :
    24 ≤ unempObsCount rowsLinear24 "DE"
    ∧ ((forecastModel rowsLinear24 0).filter
          (fun r => decide (r.country_code = "DE"))).map
        (fun r => (r.forecast_horizon_months, r.forecast_ensemble))
      = (List.range 6).map (fun (i : ℕ) =>
          (i + 1,
            nanmean3
              (exponential_smoothing (countryUnempValues rowsLinear24 "DE") (3/10)
                + (i : ℚ)
                  * (holt_linear_trend (countryUnempValues rowsLinear24 "DE") (3/10) (1/10)).2)
              ((holt_linear_trend (countryUnempValues rowsLinear24 "DE") (3/10) (1/10)).1
                + ((i : ℚ) + 1)
                  * (holt_linear_trend (countryUnempValues rowsLinear24 "DE") (3/10) (1/10)).2)
              ((linear_regression_forecast (countryUnempValues rowsLinear24 "DE") 6).getD i 0))) :=
  ⟨by decide, C1_ensemble_formula rowsLinear24 0 "DE" (by decide)⟩

/-- Claim C1 (counterexample): on 24 months of perfectly linear
unemployment the claim's formula — exponential-smoothing level plus
`h`·trend as the first ensemble component — disagrees with the produced
ensemble: the code uses `(h-1)`·trend (source line 162, `es_forecast +
i * trend` with `i = h - 1`), and here the Holt trend is `1`, not `0`. -/
theorem C1_counterexample :
    ¬ (((forecastModel rowsLinear24 0).filter
          (fun r => decide (r.country_code = "DE"))).Forall
        (fun r => r.forecast_ensemble
          = claimEnsembleForecast (countryUnempValues rowsLinear24 "DE")
              r.forecast_horizon_months)) := by
  intro hF
  have hmap := forecastModel_filter_horizon_ensemble rowsLinear24 0 "DE" (by decide)
  have hmem : ((0 + 1 : ℕ),
      nanmean3
        (exponential_smoothing (countryUnempValues rowsLinear24 "DE") (3/10)
          + ((0 : ℕ) : ℚ)
            * (holt_linear_trend (countryUnempValues rowsLinear24 "DE") (3/10) (1/10)).2)
        ((holt_linear_trend (countryUnempValues rowsLinear24 "DE") (3/10) (1/10)).1
          + (((0 : ℕ) : ℚ) + 1)
            * (holt_linear_trend (countryUnempValues rowsLinear24 "DE") (3/10) (1/10)).2)
        ((linear_regression_forecast (countryUnempValues rowsLinear24 "DE") 6).getD 0 0))
      ∈ ((forecastModel rowsLinear24 0).filter
          (fun r => decide (r.country_code = "DE"))).map
        (fun r => (r.forecast_horizon_months, r.forecast_ensemble)) := by
    rw [hmap]
    exact List.mem_map.mpr ⟨0, by decide, rfl⟩
  obtain ⟨r, hr, hproj⟩ := List.mem_map.mp hmem
  rw [List.forall_iff_forall_mem] at hF
  have hP := hF r hr
  rw [Prod.ext_iff] at hproj
  simp only at hproj
  obtain ⟨hhor, hens⟩ := hproj
  rw [hP, hhor] at hens
  have hT : (holt_linear_trend (countryUnempValues rowsLinear24 "DE") (3/10) (1/10)).2
      = 1 := by
    rw [show countryUnempValues rowsLinear24 "DE"
        = [0, 1, 2, 3, 4, 5, 6, 7, 8, 9, 10, 11, 12,
           13, 14, 15, 16, 17, 18, 19, 20, 21, 22, 23] from rfl]
    norm_num [holt_linear_trend, holtStep, List.foldl_cons, List.foldl_nil]
  rw [claimEnsembleForecast] at hens
  simp only [nanmean3, hT, Nat.cast_ofNat, Nat.cast_zero, Nat.cast_one] at hens
  norm_num at hens
  rw [div_eq_div_iff (by norm_num : (3:ℚ) ≠ 0) (by norm_num : (3:ℚ) ≠ 0)] at hens
  linarith

/-! ### Positional access lemmas -/

lemma getD_map_const {α β : Type} (l : List α) (y : β) :
    ∀ t, (l.map (fun _ => y)).getD t y = y := by
  induction l with
  | nil => intro t; rfl
  | cons a tl ih =>
    intro t
    cases t with
    | zero => rfl
    | succ t => exact ih t

lemma getD_of_all {β : Type} {l : List β} {y : β} (h : ∀ b ∈ l, b = y) :
    ∀ t, l.getD t y = y := by
  induction l with
  | nil => intro t; rfl
  | cons a tl ih =>
    intro t
    cases t with
    | zero => exact h a (List.mem_cons_self a tl)
    | succ t => exact ih (fun b hb => h b (List.mem_cons_of_mem a hb)) t

lemma getD_of_all_lt {β : Type} {l : List β} {y : β} (h : ∀ b ∈ l, b = y) (d : β)
    {t : ℕ} (ht : t < l.length) : l.getD t d = y := by
  rw [List.getD_eq_getElem l d ht]
  exact h _ (List.getElem_mem ht)

lemma filterMap_length_countP {α β : Type} (f : α → Option β) (l : List α) :
    (l.filterMap f).length = l.countP (fun a => (f a).isSome) := by
  induction l with
  | nil => rfl
  | cons a tl ih =>
    cases h : f a <;> simp [List.filterMap_cons, h, List.countP_cons, ih]

lemma col_filterMap_unemp (s : List InRow) :
    ((s.map (fun r => r.unemployment_rate_pct)).filterMap id)
      = s.filterMap (fun r => r.unemployment_rate_pct) := by
  rw [List.filterMap_map]
  rfl

lemma col_filterMap_infl (s : List InRow) :
    ((s.map (fun r => r.inflation_rate_mom_pct)).filterMap id)
      = s.filterMap (fun r => r.inflation_rate_mom_pct) := by
  rw [List.filterMap_map]
  rfl

/-! ### The anomaly pipeline on a constant series -/

lemma listMean_const {xs : List ℚ} {v : ℚ} (h : ∀ x ∈ xs, x = v) (hne : xs ≠ []) :
    listMean xs = v := by
  unfold listMean
  rw [List.sum_eq_card_nsmul xs v h, nsmul_eq_mul]
  have hn : ((xs.length : ℚ)) ≠ 0 := by
    have : 0 < xs.length := List.length_pos.mpr hne
    positivity
  rw [mul_div_cancel_left₀ _ hn]

lemma sampleVariance_const {xs : List ℚ} {v : ℚ} (h : ∀ x ∈ xs, x = v) :
    sampleVariance xs = 0 := by
  rcases eq_or_ne xs [] with rfl | hne
  · simp [sampleVariance]
  · unfold sampleVariance
    have hz : (xs.map (fun x => (x - listMean xs) ^ 2)).sum = 0 := by
      apply List.sum_eq_zero
      intro y hy
      obtain ⟨x, hx, rfl⟩ := List.mem_map.mp hy
      rw [h x hx, listMean_const h hne, sub_self]
      ring
    rw [hz, zero_div]

lemma calculate_z_scores_const {col : List (Option ℚ)} {v : ℚ}
    (h : ∀ x ∈ col.filterMap id, x = v) :
    calculate_z_scores col = col.map (fun _ => some 0) := by
  simp only [calculate_z_scores]
  rw [sampleVariance_const h]
  simp

lemma quantileLinear_const {xs : List ℚ} {v : ℚ} (h : ∀ x ∈ xs, x = v)
    (hne : xs ≠ []) {q : ℚ} (hq0 : 0 ≤ q) (hq1 : q < 1) :
    quantileLinear xs q = v := by
  simp only [quantileLinear]
  have hall : ∀ y ∈ xs.insertionSort (fun a b => a ≤ b), y = v :=
    fun y hy => h y ((List.perm_insertionSort _ xs).mem_iff.mp hy)
  have hlen : (xs.insertionSort (fun a b => a ≤ b)).length = xs.length :=
    (List.perm_insertionSort _ xs).length_eq
  have hpos : 0 < (xs.insertionSort (fun a b => a ≤ b)).length := by
    rw [hlen]
    exact List.length_pos.mpr hne
  have h1 : (1:ℚ) ≤ ((xs.insertionSort (fun a b => a ≤ b)).length : ℚ) := by
    exact_mod_cast hpos
  have hh0 : 0 ≤ q * (((xs.insertionSort (fun a b => a ≤ b)).length : ℚ) - 1) := by
    apply mul_nonneg hq0
    linarith
  have hhlt : q * (((xs.insertionSort (fun a b => a ≤ b)).length : ℚ) - 1)
      < ((xs.insertionSort (fun a b => a ≤ b)).length : ℚ) := by
    nlinarith
  have hi : (⌊q * (((xs.insertionSort (fun a b => a ≤ b)).length : ℚ) - 1)⌋).toNat
      < (xs.insertionSort (fun a b => a ≤ b)).length := by
    have hfl : ⌊q * (((xs.insertionSort (fun a b => a ≤ b)).length : ℚ) - 1)⌋
        < ((xs.insertionSort (fun a b => a ≤ b)).length : ℤ) := by
      apply Int.floor_lt.mpr
      exact_mod_cast hhlt
    have hf0 : 0 ≤ ⌊q * (((xs.insertionSort (fun a b => a ≤ b)).length : ℚ) - 1)⌋ :=
      Int.floor_nonneg.mpr hh0
    omega
  rw [getD_of_all_lt hall 0 hi, getD_of_all hall]
  ring

lemma detect_iqr_outliers_const {col : List (Option ℚ)} {v : ℚ}
    (h : ∀ x ∈ col.filterMap id, x = v) :
    ∀ b ∈ detect_iqr_outliers col, b = false := by
  intro b hb
  simp only [detect_iqr_outliers] at hb
  obtain ⟨o, ho, rfl⟩ := List.mem_map.mp hb
  cases o with
  | none => rfl
  | some x =>
    have hx : x ∈ col.filterMap id := List.mem_filterMap.mpr ⟨some x, ho, rfl⟩
    have hxv := h x hx
    have hne : col.filterMap id ≠ [] := List.ne_nil_of_mem hx
    rw [quantileLinear_const h hne (by norm_num) (by norm_num),
      quantileLinear_const h hne (by norm_num) (by norm_num)]
    rw [hxv]
    have e1 : v - (3/2 : ℚ) * (v - v) = v := by ring
    have e2 : v + (3/2 : ℚ) * (v - v) = v := by ring
    rw [e1, e2]
    simp

lemma forwardFill_mem_const {v : ℚ} :
    ∀ (col : List (Option ℚ)) (last : Option ℚ),
      (∀ x ∈ col.filterMap id, x = v) → (last = none ∨ last = some v) →
      ∀ o ∈ forwardFill col last, o = none ∨ o = some v := by
  intro col
  induction col with
  | nil =>
    intro last _ _ o ho
    exact absurd ho (List.not_mem_nil o)
  | cons a tl ih =>
    intro last h hlast o ho
    cases a with
    | some x =>
      have hx : x = v := h x (by simp [List.filterMap_cons])
      have htl : ∀ y ∈ tl.filterMap id, y = v := by
        intro y hy
        exact h y (by simp [List.filterMap_cons, hy])
      rw [show forwardFill (some x :: tl) last = some x :: forwardFill tl (some x)
        from rfl] at ho
      rcases List.mem_cons.mp ho with rfl | ho'
      · right
        rw [hx]
      · exact ih (some x) htl (Or.inr (by rw [hx])) o ho'
    | none =>
      have htl : ∀ y ∈ tl.filterMap id, y = v := by
        intro y hy
        exact h y (by simp [List.filterMap_cons, hy])
      rw [show forwardFill (none :: tl) last = last :: forwardFill tl last
        from rfl] at ho
      rcases List.mem_cons.mp ho with rfl | ho'
      · exact hlast
      · exact ih last htl hlast o ho'

lemma detect_roc_const {col : List (Option ℚ)} {v : ℚ}
    (h : ∀ x ∈ col.filterMap id, x = v) :
    ∀ b ∈ detect_rate_of_change_anomalies col (1/2), b = false := by
  intro b hb
  simp only [detect_rate_of_change_anomalies] at hb
  obtain ⟨pc, hpc, rfl⟩ := List.mem_map.mp hb
  obtain ⟨p, qq⟩ := pc
  have hfill := forwardFill_mem_const col none h (Or.inl rfl)
  obtain ⟨h1, h2⟩ := List.of_mem_zip hpc
  have hp : p = none ∨ p = some v := by
    rcases List.mem_cons.mp h1 with e | h1'
    · exact Or.inl e
    · exact hfill _ h1'
  have hq : qq = none ∨ qq = some v := hfill _ h2
  rcases hp with hp | hp <;> rcases hq with hq | hq <;> rw [hp, hq] <;> try rfl
  show (if v = 0 then decide (v ≠ 0) else decide ((1:ℚ)/2 < |v / v - 1|)) = false
  by_cases hv : v = 0
  · rw [if_pos hv, hv]
    simp
  · rw [if_neg hv, div_self hv]
    norm_num

/-! ### Anomaly model structure lemmas -/

lemma anomalyCountry_fields {rows : List InRow} {m : MidRow}
    (hm : m ∈ anomalyCountry rows) :
    ∃ t, t < rows.length
      ∧ m.country_code = (rows.getD t default).country_code
      ∧ m.unemployment_z_score
          = (indicatorColumns (rows.map (fun r => r.unemployment_rate_pct))).1.getD t none
      ∧ m.unemployment_iqr_outlier
          = (indicatorColumns (rows.map (fun r => r.unemployment_rate_pct))).2.1.getD t false
      ∧ m.unemployment_roc_anomaly
          = (indicatorColumns (rows.map (fun r => r.unemployment_rate_pct))).2.2.getD t false := by
  simp only [anomalyCountry, List.mem_map] at hm
  obtain ⟨t, ht, rfl⟩ := hm
  exact ⟨t, List.mem_range.mp ht, rfl, rfl, rfl, rfl⟩

lemma anomalyCountry_infl_fields {rows : List InRow} {m : MidRow}
    (hm : m ∈ anomalyCountry rows) :
    ∃ t, t < rows.length
      ∧ m.inflation_z_score
          = (indicatorColumns (rows.map (fun r => r.inflation_rate_mom_pct))).1.getD t none
      ∧ m.inflation_iqr_outlier
          = (indicatorColumns (rows.map (fun r => r.inflation_rate_mom_pct))).2.1.getD t false
      ∧ m.inflation_roc_anomaly
          = (indicatorColumns (rows.map (fun r => r.inflation_rate_mom_pct))).2.2.getD t false := by
  simp only [anomalyCountry, List.mem_map] at hm
  obtain ⟨t, ht, rfl⟩ := hm
  exact ⟨t, List.mem_range.mp ht, rfl, rfl, rfl⟩

lemma anomalyCountry_country {rows : List InRow} {c : String}
    (hall : ∀ r ∈ rows, r.country_code = c) {m : MidRow}
    (hm : m ∈ anomalyCountry rows) : m.country_code = c := by
  obtain ⟨t, ht, hcc, -⟩ := anomalyCountry_fields hm
  rw [hcc, List.getD_eq_getElem _ _ ht]
  exact hall _ (List.getElem_mem ht)

lemma anomalyCountry_length (rows : List InRow) :
    (anomalyCountry rows).length = rows.length := by
  simp [anomalyCountry]

lemma anomalyResultFrame_ok {rel : InputRel} (hU : rel.hasUnemploymentCol = true)
    (hI : rel.hasInflationCol = true) (hne : rel.rows ≠ []) :
    anomalyResultFrame rel
      = .ok ((((firstAppearance (rel.rows.map (fun r => r.country_code))).map
          (fun c => anomalyCountry (sortByDate (countryRows rel.rows c)))).flatten).map
            compositeRow) := by
  have hcs : ¬ ((firstAppearance (rel.rows.map
      (fun r => r.country_code))).isEmpty = true) := by
    intro hempty
    cases hrow : rel.rows with
    | nil => exact hne hrow
    | cons r t =>
      have hmem : r.country_code ∈ firstAppearance (rel.rows.map
          (fun r => r.country_code)) := by
        apply mem_firstAppearance.mpr
        rw [hrow]
        simp
      rw [List.isEmpty_iff.mp hempty] at hmem
      exact absurd hmem (List.not_mem_nil _)
  unfold anomalyResultFrame
  rw [if_neg hcs, hU, hI]
  simp

lemma anomalyFrame_filter (rel : InputRel) (c : String)
    (hc : c ∈ rel.rows.map (fun r => r.country_code)) :
    (((((firstAppearance (rel.rows.map (fun r => r.country_code))).map
        (fun c' => anomalyCountry (sortByDate (countryRows rel.rows c')))).flatten).map
          compositeRow).filter (fun m => decide (m.country_code = c)))
      = (anomalyCountry (sortByDate (countryRows rel.rows c))).map compositeRow := by
  rw [List.filter_map]
  have hpred : ((fun m : FullRow => decide (m.country_code = c)) ∘ compositeRow)
      = (fun m : MidRow => decide (m.country_code = c)) := rfl
  rw [hpred, flatten_filter_of_nodup MidRow.country_code
      (fun c' => anomalyCountry (sortByDate (countryRows rel.rows c')))
      (fun c' m hm => anomalyCountry_country
        (fun r hr => (mem_countryRows.mp (mem_sortByDate.mp hr)).2) hm)
      _ (nodup_firstAppearance _) c,
    if_pos (mem_firstAppearance.mpr hc)]

lemma indicatorColumns_small {col : List (Option ℚ)}
    (hsmall : ¬ 10 < (col.filterMap id).length) :
    indicatorColumns col
      = (col.map (fun _ => none), col.map (fun _ => false), col.map (fun _ => false)) := by
  simp only [indicatorColumns, if_neg hsmall]

lemma indicatorColumns_const {col : List (Option ℚ)} {v : ℚ}
    (h : ∀ x ∈ col.filterMap id, x = v) (hbig : 10 < (col.filterMap id).length) :
    (indicatorColumns col).1 = col.map (fun _ => some 0)
    ∧ (∀ b ∈ (indicatorColumns col).2.1, b = false)
    ∧ (∀ b ∈ (indicatorColumns col).2.2, b = false) := by
  simp only [indicatorColumns, if_pos hbig]
  exact ⟨calculate_z_scores_const h, detect_iqr_outliers_const h, detect_roc_const h⟩

lemma col_filterMap (g : InRow → Option ℚ) (s : List InRow) :
    (s.map g).filterMap id = s.filterMap g := by
  rw [List.filterMap_map]
  rfl

lemma sorted_col_count (rows : List InRow) (c : String) (g : InRow → Option ℚ) :
    (((sortByDate (countryRows rows c)).map g).filterMap id).length
      = (countryRows rows c).countP (fun r => (g r).isSome) := by
  rw [col_filterMap, filterMap_length_countP]
  exact (sortByDate_perm _).countP_eq _

lemma sorted_col_const {rows : List InRow} {c : String} {v : ℚ} (g : InRow → Option ℚ)
    (hv : ∀ r ∈ rows, r.country_code = c → g r = none ∨ g r = some v) :
    ∀ x ∈ ((sortByDate (countryRows rows c)).map g).filterMap id, x = v := by
  intro x hx
  rw [col_filterMap] at hx
  obtain ⟨r, hr, hrx⟩ := List.mem_filterMap.mp hx
  have hr2 := mem_countryRows.mp (mem_sortByDate.mp hr)
  rcases hv r hr2.1 hr2.2 with hn | hs
  · rw [hn] at hrx
    cases hrx
  · rw [hs] at hrx
    exact (Option.some_inj.mp hrx).symm

/-- Claim C5 (confirmed): a country with fewer than 24 non-missing monthly
unemployment observations gets no forecast rows (skip, not an error); the
anomaly detector still emits one row per input row of that country, and
below 11 non-missing values those rows carry a missing unemployment
z-score and false unemployment flags. -/
theorem C5_short_series_policy :
    ∀ (rel : InputRel) (now : ℤ) (c : String),
      rel.hasUnemploymentCol = true → rel.hasInflationCol = true →
      c ∈ rel.rows.map (fun r => r.country_code) →
      unempObsCount rel.rows c < 24 →
      ((forecastModel rel.rows now).Forall (fun r => r.country_code ≠ c))
      ∧ ∃ out, anomalyResultFrame rel = .ok out
          ∧ (out.filter (fun m => decide (m.country_code = c))).length
              = (countryRows rel.rows c).length
          ∧ (∃ final, anomalyModel rel = .ok final ∧ final.length = out.length)
          ∧ (unempObsCount rel.rows c < 11 →
              ∀ m ∈ out, m.country_code = c →
                m.unemployment_z_score = none
                ∧ m.unemployment_iqr_outlier = false
                ∧ m.unemployment_roc_anomaly = false
                ∧ m.is_unemployment_anomaly = false) := by
  intro rel now c hU hI hc h24
  have hne : rel.rows ≠ [] := by
    intro hnil
    rw [hnil] at hc
    exact absurd hc (List.not_mem_nil c)
  have hskip : forecastCountry c now (sortByDate (countryRows rel.rows c)) = [] := by
    have hlt : ((sortByDate (countryRows rel.rows c)).filterMap
        (fun r => r.unemployment_rate_pct.map (fun v => (r.reference_date, v)))).length
        < 24 := by
      rw [sorted_series_count]
      exact h24
    simp only [forecastCountry, if_pos hlt]
  constructor
  · rw [List.forall_iff_forall_mem]
    intro r hr hrc
    obtain ⟨b, hb, rfl⟩ := forecastModel_mem_structure hr
    have : (forecastWidthStage b).country_code = c := hrc
    rw [this] at hb
    rw [hskip] at hb
    exact absurd hb (List.not_mem_nil b)
  · refine ⟨_, anomalyResultFrame_ok hU hI hne, ?_, ?_, ?_⟩
    · rw [anomalyFrame_filter rel c hc, List.length_map, anomalyCountry_length,
        (sortByDate_perm _).length_eq]
    · have hmod : anomalyModel rel
          = .ok (((((firstAppearance (rel.rows.map (fun r => r.country_code))).map
              (fun c' => anomalyCountry (sortByDate (countryRows rel.rows c')))).flatten).map
                compositeRow).map selectOutputColumns) := by
        unfold anomalyModel
        rw [anomalyResultFrame_ok hU hI hne]
        rfl
      exact ⟨_, hmod, by rw [List.length_map]⟩
    · intro h11 m hm hmc
      have hmf : m ∈ (anomalyCountry (sortByDate (countryRows rel.rows c))).map
          compositeRow := by
        rw [← anomalyFrame_filter rel c hc]
        exact List.mem_filter.mpr ⟨hm, by simp [hmc]⟩
      obtain ⟨mid, hmid, rfl⟩ := List.mem_map.mp hmf
      have hsmall : ¬ 10 < (((sortByDate (countryRows rel.rows c)).map
          (fun r => r.unemployment_rate_pct)).filterMap id).length := by
        rw [sorted_col_count]
        unfold unempObsCount at h11
        omega
      obtain ⟨t, ht, -, hz, hiqr, hroc⟩ := anomalyCountry_fields hmid
      have hz2 : mid.unemployment_z_score = none := by
        rw [hz, indicatorColumns_small hsmall]
        exact getD_map_const _ none t
      have hiqr2 : mid.unemployment_iqr_outlier = false := by
        rw [hiqr, indicatorColumns_small hsmall]
        exact getD_map_const _ false t
      have hroc2 : mid.unemployment_roc_anomaly = false := by
        rw [hroc, indicatorColumns_small hsmall]
        exact getD_map_const _ false t
      refine ⟨hz2, hiqr2, hroc2, ?_⟩
      show (zThresholdFlag mid.unemployment_z_score || mid.unemployment_iqr_outlier
        || mid.unemployment_roc_anomaly) = false
      rw [hz2, hiqr2, hroc2]
      rfl

/-- Witness for C5: a country with five constant observations — below both
thresholds — instantiates every hypothesis of the claim. -/
theorem C5_short_series_policy_witness :
    relConst5.hasUnemploymentCol = true ∧ relConst5.hasInflationCol = true
    ∧ "DE" ∈ relConst5.rows.map (fun r => r.country_code)
    ∧ unempObsCount relConst5.rows "DE" < 24
    ∧ (((forecastModel relConst5.rows 0).Forall (fun r => r.country_code ≠ "DE"))
      ∧ ∃ out, anomalyResultFrame relConst5 = .ok out
          ∧ (out.filter (fun m => decide (m.country_code = "DE"))).length
              = (countryRows relConst5.rows "DE").length
          ∧ (∃ final, anomalyModel relConst5 = .ok final ∧ final.length = out.length)
          ∧ (unempObsCount relConst5.rows "DE" < 11 →
              ∀ m ∈ out, m.country_code = "DE" →
                m.unemployment_z_score = none
                ∧ m.unemployment_iqr_outlier = false
                ∧ m.unemployment_roc_anomaly = false
                ∧ m.is_unemployment_anomaly = false)) :=
  ⟨rfl, rfl, by decide, by decide,
    C5_short_series_policy relConst5 0 "DE" rfl rfl (by decide) (by decide)⟩

/-- Claim C4 (corrected, amended form): for a country all of whose
non-missing values of a tracked indicator are identical, neither the IQR
flag nor the rate-of-change flag of that indicator is ever set, and — when
at least 11 such values exist, so that the statistics are computed at
all — every z-score of that indicator is exactly 0; with fewer values the
z-scores are missing rather than 0. -/
theorem C4_constant_series_never_flagged :
    ∀ (rel : InputRel) (c : String),
      rel.hasUnemploymentCol = true → rel.hasInflationCol = true → rel.rows ≠ [] →
      ∃ out, anomalyResultFrame rel = .ok out
        ∧ (∀ v : ℚ,
            (∀ r ∈ rel.rows, r.country_code = c →
              r.unemployment_rate_pct = none ∨ r.unemployment_rate_pct = some v) →
            ∀ m ∈ out, m.country_code = c →
              (10 < unempObsCount rel.rows c → m.unemployment_z_score = some 0)
              ∧ m.unemployment_iqr_outlier = false
              ∧ m.unemployment_roc_anomaly = false)
        ∧ (∀ w : ℚ,
            (∀ r ∈ rel.rows, r.country_code = c →
              r.inflation_rate_mom_pct = none ∨ r.inflation_rate_mom_pct = some w) →
            ∀ m ∈ out, m.country_code = c →
              (10 < inflObsCount rel.rows c → m.inflation_z_score = some 0)
              ∧ m.inflation_iqr_outlier = false
              ∧ m.inflation_roc_anomaly = false) := by
  intro rel c hU hI hne
  refine ⟨_, anomalyResultFrame_ok hU hI hne, ?_, ?_⟩
  · intro v hv m hm hmc
    have hc : c ∈ rel.rows.map (fun r => r.country_code) := by
      have hmf0 := List.mem_map.mp hm
      obtain ⟨mid0, hmid0, rfl⟩ := hmf0
      obtain ⟨l, hl, hmidl⟩ := List.mem_flatten.mp hmid0
      obtain ⟨c', hc', rfl⟩ := List.mem_map.mp hl
      have : mid0.country_code = c' := anomalyCountry_country
        (fun r hr => (mem_countryRows.mp (mem_sortByDate.mp hr)).2) hmidl
      rw [show (compositeRow mid0).country_code = mid0.country_code from rfl, this] at hmc
      rw [← hmc]
      exact mem_firstAppearance.mp hc'
    have hmf : m ∈ (anomalyCountry (sortByDate (countryRows rel.rows c))).map
        compositeRow := by
      rw [← anomalyFrame_filter rel c hc]
      exact List.mem_filter.mpr ⟨hm, by simp [hmc]⟩
    obtain ⟨mid, hmid, rfl⟩ := List.mem_map.mp hmf
    obtain ⟨t, ht, -, hz, hiqr, hroc⟩ := anomalyCountry_fields hmid
    have hconst := sorted_col_const (fun r => r.unemployment_rate_pct) hv
    by_cases hbig : 10 < (((sortByDate (countryRows rel.rows c)).map
        (fun r => r.unemployment_rate_pct)).filterMap id).length
    · obtain ⟨hzc, hiqrc, hrocc⟩ := indicatorColumns_const hconst hbig
      have hlen : t < ((sortByDate (countryRows rel.rows c)).map
          (fun r => r.unemployment_rate_pct)).length := by
        rw [List.length_map, (sortByDate_perm _).length_eq]
        rwa [(sortByDate_perm _).length_eq] at ht
      refine ⟨fun _ => ?_, ?_, ?_⟩
      · show mid.unemployment_z_score = some 0
        rw [hz, hzc]
        exact getD_of_all_lt (fun b hb => (List.mem_map.mp hb).elim
          (fun _ h => h.2.symm ▸ rfl)) none
          (by simp only [List.length_map]; exact ht)
      · show mid.unemployment_iqr_outlier = false
        rw [hiqr]
        exact getD_of_all hiqrc t
      · show mid.unemployment_roc_anomaly = false
        rw [hroc]
        exact getD_of_all hrocc t
    · have hsm := indicatorColumns_small hbig
      refine ⟨fun hcount => ?_, ?_, ?_⟩
      · exfalso
        rw [sorted_col_count] at hbig
        unfold unempObsCount at hcount
        exact hbig hcount
      · show mid.unemployment_iqr_outlier = false
        rw [hiqr, hsm]
        exact getD_map_const _ false t
      · show mid.unemployment_roc_anomaly = false
        rw [hroc, hsm]
        exact getD_map_const _ false t
  · intro w hw m hm hmc
    have hc : c ∈ rel.rows.map (fun r => r.country_code) := by
      have hmf0 := List.mem_map.mp hm
      obtain ⟨mid0, hmid0, rfl⟩ := hmf0
      obtain ⟨l, hl, hmidl⟩ := List.mem_flatten.mp hmid0
      obtain ⟨c', hc', rfl⟩ := List.mem_map.mp hl
      have : mid0.country_code = c' := anomalyCountry_country
        (fun r hr => (mem_countryRows.mp (mem_sortByDate.mp hr)).2) hmidl
      rw [show (compositeRow mid0).country_code = mid0.country_code from rfl, this] at hmc
      rw [← hmc]
      exact mem_firstAppearance.mp hc'
    have hmf : m ∈ (anomalyCountry (sortByDate (countryRows rel.rows c))).map
        compositeRow := by
      rw [← anomalyFrame_filter rel c hc]
      exact List.mem_filter.mpr ⟨hm, by simp [hmc]⟩
    obtain ⟨mid, hmid, rfl⟩ := List.mem_map.mp hmf
    obtain ⟨t, ht, hz, hiqr, hroc⟩ := anomalyCountry_infl_fields hmid
    have hconst := sorted_col_const (fun r => r.inflation_rate_mom_pct) hw
    by_cases hbig : 10 < (((sortByDate (countryRows rel.rows c)).map
        (fun r => r.inflation_rate_mom_pct)).filterMap id).length
    · obtain ⟨hzc, hiqrc, hrocc⟩ := indicatorColumns_const hconst hbig
      refine ⟨fun _ => ?_, ?_, ?_⟩
      · show mid.inflation_z_score = some 0
        rw [hz, hzc]
        exact getD_of_all_lt (fun b hb => (List.mem_map.mp hb).elim
          (fun _ h => h.2.symm ▸ rfl)) none
          (by simp only [List.length_map]; exact ht)
      · show mid.inflation_iqr_outlier = false
        rw [hiqr]
        exact getD_of_all hiqrc t
      · show mid.inflation_roc_anomaly = false
        rw [hroc]
        exact getD_of_all hrocc t
    · have hsm := indicatorColumns_small hbig
      refine ⟨fun hcount => ?_, ?_, ?_⟩
      · exfalso
        rw [sorted_col_count] at hbig
        unfold inflObsCount at hcount
        exact hbig hcount
      · show mid.inflation_iqr_outlier = false
        rw [hiqr, hsm]
        exact getD_map_const _ false t
      · show mid.inflation_roc_anomaly = false
        rw [hroc, hsm]
        exact getD_map_const _ false t

/-- Witness for C4: twelve constant observations (above the 11-sample
threshold) satisfy every hypothesis of the amended claim, including the
nested all-equal and sample-count conditions. -/
theorem C4_constant_series_never_flagged_witness :
    relConst12.hasUnemploymentCol = true ∧ relConst12.hasInflationCol = true
    ∧ relConst12.rows ≠ []
    ∧ (∀ r ∈ relConst12.rows, r.country_code = "DE" →
        r.unemployment_rate_pct = none ∨ r.unemployment_rate_pct = some 7)
    ∧ 10 < unempObsCount relConst12.rows "DE"
    ∧ (∃ out, anomalyResultFrame relConst12 = .ok out
        ∧ (∀ v : ℚ,
            (∀ r ∈ relConst12.rows, r.country_code = "DE" →
              r.unemployment_rate_pct = none ∨ r.unemployment_rate_pct = some v) →
            ∀ m ∈ out, m.country_code = "DE" →
              (10 < unempObsCount relConst12.rows "DE" →
                m.unemployment_z_score = some 0)
              ∧ m.unemployment_iqr_outlier = false
              ∧ m.unemployment_roc_anomaly = false)
        ∧ (∀ w : ℚ,
            (∀ r ∈ relConst12.rows, r.country_code = "DE" →
              r.inflation_rate_mom_pct = none ∨ r.inflation_rate_mom_pct = some w) →
            ∀ m ∈ out, m.country_code = "DE" →
              (10 < inflObsCount relConst12.rows "DE" →
                m.inflation_z_score = some 0)
              ∧ m.inflation_iqr_outlier = false
              ∧ m.inflation_roc_anomaly = false)) :=
  ⟨rfl, rfl, by decide, by decide, by decide,
    C4_constant_series_never_flagged relConst12 "DE" rfl rfl (by decide)⟩

/-- Claim C4 (counterexample): on five identical observations — below the
11-sample minimum — the unemployment z-scores are emitted as missing, not
as exactly 0, so the claim fails as stated. -/
theorem C4_counterexample :
    ¬ (∀ out, anomalyResultFrame relConst5 = .ok out →
        ∀ m ∈ out, m.unemployment_z_score = some 0) := by
  intro hclaim
  have hok : (anomalyResultFrame relConst5).map
      (fun out => out.map (fun m => m.unemployment_z_score))
      = .ok [none, none, none, none, none] := rfl
  cases hfr : anomalyResultFrame relConst5 with
  | error e =>
    rw [hfr] at hok
    simp only [Except.map] at hok
    exact Except.noConfusion hok
  | ok out =>
    have hz := hclaim out hfr
    rw [hfr] at hok
    simp only [Except.map] at hok
    have hmap : out.map (fun m => m.unemployment_z_score)
        = [none, none, none, none, none] := by
      exact Except.ok.inj hok
    cases out with
    | nil => simp at hmap
    | cons m rest =>
      rw [List.map_cons] at hmap
      injection hmap with h1 h2
      have := hz m (List.mem_cons_self m rest)
      rw [this] at h1
      exact absurd h1 (by simp)

end EuroIndicators
